import Mathlib

/-!
Verification of the omni-grab download-progress and streaming-delivery core.

This file gives a shallow embedding of the relevant parts of `src/app.py`
and `src/downloader.py` and proves properties of that embedding.

Modelling conventions:
* Python dict records become a Lean structure; a key that may be absent is
  an `Option` field, so structural dict equality is structural equality of
  the structure.
* Machine floats used for percentages are modelled as rationals; Python's
  `round(x, 1)` (banker's rounding at one decimal) is `pyRound1`.
* Exceptions are values of `Except` / explicit exit kinds; a `try/except`
  handler is a `match` on them.
* Byte strings are `List Nat`; the filesystem of the temporary directory
  is an association list from filename to contents.
* Python string formatting of a float (inside an f-string) is abstracted
  by `pctText`; no claim depends on the exact rendering of a number.
-/

namespace OmniGrab

/-- A Progress Record as stored in `download_progress` (app.py).
`filename` / `download_url` model the keys only present on completion. -/
structure ProgressRecord where
  status : String
  percentage : ℚ
  message : String
  filename : Option String := none
  download_url : Option String := none
deriving DecidableEq

/-! ## Filename sanitisation (app.py `download`, lines 104-114) -/

/-- `c.isalnum() or c in (' ', '-', '_')` from app.py line 106. -/
def keepChar (c : Char) : Bool :=
  c.isAlphanum || c = ' ' || c = '-' || c = '_'

/-- Python `str.strip()`: remove leading and trailing whitespace. -/
def pyStrip (l : List Char) : List Char :=
  ((l.dropWhile Char.isWhitespace).reverse.dropWhile Char.isWhitespace).reverse

/-- app.py lines 106-107: keep the allowed characters, strip surrounding
whitespace, truncate to 100 characters. -/
def sanitizeTitle (t : String) : String :=
  ((pyStrip (t.toList.filter keepChar)).take 100).asString

/-- Python `s.startswith(p)`, as a prefix test on the character lists. -/
def pyStartsWith (s p : String) : Bool :=
  p.toList.isPrefixOf s.toList

/-- app.py lines 109-114: the filename sent in the Content-Disposition
header of the streaming route: forced `.mp3` extension for `audio_`
selections, `.mp4` otherwise. -/
def downloadFilename (title fmt : String) : String :=
  if pyStartsWith fmt "audio_" then sanitizeTitle title ++ ".mp3"
  else sanitizeTitle title ++ ".mp4"

/-! Helper lemmas about the sanitiser. -/

theorem sanitizeTitle_length_le (t : String) : (sanitizeTitle t).length ≤ 100 := by
  have h : (sanitizeTitle t).length = ((pyStrip (t.toList.filter keepChar)).take 100).length := rfl
  rw [h, List.length_take]
  exact min_le_left _ _

theorem mem_pyStrip {c : Char} {l : List Char} (h : c ∈ pyStrip l) : c ∈ l := by
  unfold pyStrip at h
  rw [List.mem_reverse] at h
  have h2 := (List.dropWhile_sublist _).mem h
  rw [List.mem_reverse] at h2
  exact (List.dropWhile_sublist _).mem h2

theorem sanitizeTitle_chars {t : String} {c : Char}
    (h : c ∈ (sanitizeTitle t).toList) : keepChar c = true := by
  have h1 : c ∈ (pyStrip (t.toList.filter keepChar)).take 100 := h
  have h2 := mem_pyStrip ((List.take_sublist _ _).mem h1)
  exact (List.mem_filter.mp h2).2

/-! ## The async download worker (app.py `download_worker`, lines 140-201) -/

/-- Python `round(q, 1)`: round to one decimal place, ties to even. -/
def pyRound1 (q : ℚ) : ℚ :=
  let x : ℚ := 10 * q
  let f : ℤ := Int.floor x
  let fr : ℚ := x - f
  let r : ℤ :=
    if fr < 1/2 then f
    else if 1/2 < fr then f + 1
    else if f % 2 = 0 then f else f + 1
  (r : ℚ) / 10

/-- Stand-in for Python's textual rendering of a number inside an
f-string; no claim depends on the exact rendering. -/
def pctText (q : ℚ) : String := toString q.num ++ "/" ++ toString q.den

/-- The record written at task launch (app.py lines 164-169). -/
def connectingRecord : ProgressRecord :=
  { status := "downloading", percentage := 0, message := "Conectando..." }

/-- The record written by the progress callback for a `downloading`
event (app.py lines 152-157). -/
def downloadingRecord (p : ℚ) : ProgressRecord :=
  { status := "downloading", percentage := pyRound1 p
    message := "Descargando... " ++ pctText (pyRound1 p) ++ "%" }

/-- The record written on adapter success (app.py lines 178-186). -/
def completedRecord (fn : String) : ProgressRecord :=
  { status := "completed", percentage := 100, message := "Descarga completada"
    filename := some fn, download_url := some ("/downloads/" ++ fn) }

/-- The record written on adapter failure or on a caught exception
(app.py lines 187-201). -/
def errorRecord (msg : String) : ProgressRecord :=
  { status := "error", percentage := 0, message := msg }

/-- Events delivered to the worker's `progress_callback` by the engine
adapter (the dicts produced by `_create_progress_hook`). -/
inductive AdapterEvent where
  | downloading (percentage : ℚ)
  | finished
  | failed
deriving DecidableEq

/-- The result dict of `MediaEngine.download_media`: success with a
filename, or failure with an optional error message (the worker reads
it with `result.get('error', 'Error desconocido')`). -/
inductive AdapterResult where
  | ok (filename : String)
  | fail (errMsg : Option String)
deriving DecidableEq

/-- One complete behaviour of the adapter call inside the worker: the
progress events it delivers, then either a returned result or a raised
exception. -/
inductive AdapterOutcome where
  | returns (events : List AdapterEvent) (res : AdapterResult)
  | raises (events : List AdapterEvent) (e : String)
deriving DecidableEq

/-- The store write performed by `progress_callback` (app.py lines
149-160) given the current record `r` for the task: a `downloading`
event replaces the record, a `finished` event patches status and
message in place, other statuses are ignored (no write). -/
def callbackWrite (r : ProgressRecord) : AdapterEvent → Option ProgressRecord
  | .downloading p => some (downloadingRecord p)
  | .finished => some { r with status := "processing", message := "Procesando archivo..." }
  | .failed => none

/-- Successive record states written by the callback over a list of
adapter events, starting from record `r`. -/
def eventStates (r : ProgressRecord) : List AdapterEvent → List ProgressRecord
  | [] => []
  | e :: es =>
    match callbackWrite r e with
    | some r2 => r2 :: eventStates r2 es
    | none => eventStates r es

/-- The body of the worker's `try` block: an exception from the adapter
propagates as `.error`, otherwise the terminal record is computed from
the adapter's result dict (app.py lines 162-193). -/
def workerBody : AdapterOutcome → Except String ProgressRecord
  | .returns _ (.ok fn) => .ok (completedRecord fn)
  | .returns _ (.fail m) => .ok (errorRecord (m.getD "Error desconocido"))
  | .raises _ e => .error e

/-- `download_worker`: the final record stored for the task. The
`except Exception` handler (app.py lines 195-201) converts any raised
exception into an `error` record, so the function is total — nothing
propagates past the worker. -/
def download_worker (o : AdapterOutcome) : ProgressRecord :=
  match workerBody o with
  | .ok r => r
  | .error e => errorRecord ("Error: " ++ e)

/-- The events of an outcome. -/
def eventsOf : AdapterOutcome → List AdapterEvent
  | .returns evs _ => evs
  | .raises evs _ => evs

/-- All store writes the worker performs for its task, in order: the
launch record, the callback writes, then the terminal write. -/
def workerWrites (o : AdapterOutcome) : List ProgressRecord :=
  (connectingRecord :: eventStates connectingRecord (eventsOf o)) ++ [download_worker o]

/-- A record whose status is terminal in the sense of the data model. -/
def isTerminalRecord (r : ProgressRecord) : Bool :=
  r.status = "completed" || r.status = "error"

theorem eventStates_status {r0 : ProgressRecord} {evs : List AdapterEvent}
    {r : ProgressRecord} (h : r ∈ eventStates r0 evs) :
    r.status = "downloading" ∨ r.status = "processing" := by
  induction evs generalizing r0 with
  | nil => simp [eventStates] at h
  | cons e es ih =>
    cases e with
    | downloading p =>
      simp only [eventStates, callbackWrite, List.mem_cons] at h
      rcases h with h | h
      · exact Or.inl (by rw [h]; rfl)
      · exact ih h
    | finished =>
      simp only [eventStates, callbackWrite, List.mem_cons] at h
      rcases h with h | h
      · exact Or.inr (by rw [h])
      · exact ih h
    | failed =>
      simp only [eventStates, callbackWrite] at h
      exact ih h

theorem workerWrites_dropLast (o : AdapterOutcome) :
    (workerWrites o).dropLast = connectingRecord :: eventStates connectingRecord (eventsOf o) := by
  unfold workerWrites
  exact List.dropLast_concat ..

theorem nonterminal_before_final {o : AdapterOutcome} {r : ProgressRecord}
    (h : r ∈ (workerWrites o).dropLast) : isTerminalRecord r = false := by
  rw [workerWrites_dropLast] at h
  rcases List.mem_cons.mp h with h | h
  · rw [h]; rfl
  · rcases eventStates_status h with h2 | h2 <;>
      simp [isTerminalRecord, h2]

/-! ## Progress Store (app.py lines 21-22, 215-241, 269-287) -/

/-- The `download_progress` table: task id to record. -/
abbrev Store := List (String × ProgressRecord)

/-- The record synthesised by the reader for an unknown task id
(app.py lines 224-228). -/
def notFoundRecord : ProgressRecord :=
  { status := "not_found", percentage := 0, message := "Tarea no encontrada" }

/-- The snapshot a poll of the notifier loop reads: the stored record
when the id is present, the synthesised `not_found` record otherwise
(app.py lines 220-228). -/
def pollRecord (snap : Option ProgressRecord) : ProgressRecord :=
  snap.getD notFoundRecord

/-- Read of the store by task id (`get`): copy of the record or the
synthesised sentinel. -/
def storeGet (s : Store) (id : String) : ProgressRecord :=
  pollRecord (s.lookup id)

/-- `cleanup_task` (app.py lines 280-282): delete the entry if present;
idempotent, touches nothing else. -/
def cleanup_task (s : Store) (id : String) : Store :=
  s.filter (fun p => !(p.1 == id))

/-- app.py line 236: statuses on which the notifier loop stops. -/
def isTerminal (st : String) : Bool :=
  st = "completed" || st = "error" || st = "not_found"

/-! ## Progress Notifier (app.py `get_progress`, lines 215-241)

The SSE generator is an unbounded loop; it is embedded with explicit
fuel. `snaps k` is the content of the store at the k-th poll, restricted
to the subscribed task id. The loop returns the list of emitted events
and whether it terminated by reaching a terminal status (`true`) or by
running out of fuel (`false`). -/

def notifierLoop : ℕ → (ℕ → Option ProgressRecord) → ℕ → Option ProgressRecord →
    List ProgressRecord × Bool
  | 0, _, _, _ => ([], false)
  | fuel + 1, snaps, k, last =>
    let cur := pollRecord (snaps k)
    if last = some cur then
      if isTerminal cur.status then ([], true)
      else notifierLoop fuel snaps (k + 1) last
    else
      if isTerminal cur.status then ([cur], true)
      else
        let rest := notifierLoop fuel snaps (k + 1) (some cur)
        (cur :: rest.1, rest.2)

/-- The subscription entry point: `last_status = None` initially
(app.py line 217). -/
def get_progress (fuel : ℕ) (snaps : ℕ → Option ProgressRecord) :
    List ProgressRecord × Bool :=
  notifierLoop fuel snaps 0 none

/-- The sequence of records the loop would read over `fuel` polls. -/
def polled : ℕ → (ℕ → Option ProgressRecord) → ℕ → List ProgressRecord
  | 0, _, _ => []
  | fuel + 1, snaps, k => pollRecord (snaps k) :: polled fuel snaps (k + 1)

/-! Helper lemmas about the notifier loop. -/

theorem notifierLoop_sublist (fuel : ℕ) (snaps : ℕ → Option ProgressRecord)
    (k : ℕ) (last : Option ProgressRecord) :
    List.Sublist (notifierLoop fuel snaps k last).1 (polled fuel snaps k) := by
  induction fuel generalizing k last with
  | zero => simp [notifierLoop, polled]
  | succ n ih =>
    rw [notifierLoop, polled]
    by_cases h1 : last = some (pollRecord (snaps k))
    · rw [if_pos h1]
      by_cases h2 : isTerminal (pollRecord (snaps k)).status
      · simp [h2]
      · simp only [h2, if_false, Bool.false_eq_true]
        exact (ih (k + 1) last).cons _
    · rw [if_neg h1]
      by_cases h2 : isTerminal (pollRecord (snaps k)).status
      · simp [h2]
      · simp only [h2, if_false, Bool.false_eq_true]
        exact (ih (k + 1) (some (pollRecord (snaps k)))).cons₂ _

theorem notifierLoop_chain (fuel : ℕ) (snaps : ℕ → Option ProgressRecord)
    (k : ℕ) (last : Option ProgressRecord) :
    List.Chain' (fun a b => a ≠ b)
      (last.toList ++ (notifierLoop fuel snaps k last).1) := by
  induction fuel generalizing k last with
  | zero =>
    cases last <;> simp [notifierLoop]
  | succ n ih =>
    rw [notifierLoop]
    by_cases h1 : last = some (pollRecord (snaps k))
    · rw [if_pos h1]
      by_cases h2 : isTerminal (pollRecord (snaps k)).status
      · rw [if_pos h2]
        cases last <;> simp
      · rw [if_neg h2]
        exact ih (k + 1) last
    · rw [if_neg h1]
      by_cases h2 : isTerminal (pollRecord (snaps k)).status
      · rw [if_pos h2]
        cases last with
        | none => simp
        | some r =>
          simp only [Option.toList_some, List.singleton_append, List.chain'_cons,
            List.chain'_singleton, and_true]
          intro he
          exact h1 (by rw [he])
      · rw [if_neg h2]
        have hrec := ih (k + 1) (some (pollRecord (snaps k)))
        simp only [Option.toList_some, List.singleton_append] at hrec
        cases last with
        | none => simpa using hrec
        | some r =>
          simp only [Option.toList_some, List.singleton_append, List.chain'_cons]
          refine ⟨fun he => h1 (by rw [he]), ?_⟩
          simpa using hrec


theorem notifierLoop_term_last (fuel : ℕ) (snaps : ℕ → Option ProgressRecord)
    (k : ℕ) (last : Option ProgressRecord)
    (h : (notifierLoop fuel snaps k last).2 = true) :
    (∃ r, (notifierLoop fuel snaps k last).1.getLast? = some r ∧ isTerminal r.status = true) ∨
    ((notifierLoop fuel snaps k last).1 = [] ∧
      ∃ r, last = some r ∧ isTerminal r.status = true) := by
  induction fuel generalizing k last with
  | zero => simp [notifierLoop] at h
  | succ n ih =>
    rw [notifierLoop] at h ⊢
    by_cases h1 : last = some (pollRecord (snaps k))
    · rw [if_pos h1] at h ⊢
      by_cases h2 : isTerminal (pollRecord (snaps k)).status
      · rw [if_pos h2]
        exact Or.inr ⟨rfl, pollRecord (snaps k), h1, h2⟩
      · rw [if_neg h2] at h ⊢
        exact ih (k + 1) last h
    · rw [if_neg h1] at h ⊢
      by_cases h2 : isTerminal (pollRecord (snaps k)).status
      · rw [if_pos h2]
        exact Or.inl ⟨pollRecord (snaps k), rfl, h2⟩
      · rw [if_neg h2] at h ⊢
        simp only at h
        rcases ih (k + 1) (some (pollRecord (snaps k))) h with ⟨r, hr, ht⟩ | ⟨he, r, hr, ht⟩
        · left
          refine ⟨r, ?_, ht⟩
          have hne : (notifierLoop n snaps (k + 1) (some (pollRecord (snaps k)))).1 ≠ [] := by
            intro hnil
            rw [hnil] at hr
            simp at hr
          simp only [List.getLast?_cons, hr]
          cases hrest : (notifierLoop n snaps (k + 1) (some (pollRecord (snaps k)))).1 with
          | nil => exact absurd hrest hne
          | cons a l => rw [hrest] at hr; simp [List.getLast?_cons, hr]
        · have heq : pollRecord (snaps k) = r := Option.some_inj.mp hr
          rw [← heq] at ht
          exact absurd ht h2

theorem notifierLoop_terminal_stops (fuel : ℕ) (snaps : ℕ → Option ProgressRecord)
    (k : ℕ) (last : Option ProgressRecord) {r : ProgressRecord}
    (hr : r ∈ (notifierLoop fuel snaps k last).1) (ht : isTerminal r.status = true) :
    (notifierLoop fuel snaps k last).2 = true := by
  induction fuel generalizing k last with
  | zero => simp [notifierLoop] at hr
  | succ n ih =>
    rw [notifierLoop] at hr ⊢
    by_cases h1 : last = some (pollRecord (snaps k))
    · rw [if_pos h1] at hr ⊢
      by_cases h2 : isTerminal (pollRecord (snaps k)).status
      · simp [h2]
      · rw [if_neg h2] at hr ⊢
        exact ih _ _ hr
    · rw [if_neg h1] at hr ⊢
      by_cases h2 : isTerminal (pollRecord (snaps k)).status
      · simp [h2]
      · rw [if_neg h2] at hr ⊢
        simp only [List.mem_cons] at hr
        rcases hr with rfl | hr
        · exact absurd ht h2
        · exact ih _ _ hr

theorem notifierLoop_const_nil (fuel : ℕ) (c : ProgressRecord) (k : ℕ) :
    (notifierLoop fuel (fun _ => some c) k (some c)).1 = [] := by
  induction fuel generalizing k with
  | zero => simp [notifierLoop]
  | succ n ih =>
    rw [notifierLoop]
    have h1 : (some c : Option ProgressRecord) =
        some (pollRecord ((fun _ => some c) k)) := rfl
    rw [if_pos h1]
    by_cases h2 : isTerminal (pollRecord ((fun (_ : ℕ) => some c) k)).status
    · simp [h2]
    · rw [if_neg h2]
      exact ih (k + 1)

theorem notifierLoop_first_emits (n : ℕ) (snaps : ℕ → Option ProgressRecord) (k : ℕ) :
    (notifierLoop (n + 1) snaps k none).1 ≠ [] := by
  rw [notifierLoop]
  simp only [reduceCtorEq, if_false]
  by_cases h2 : isTerminal (pollRecord (snaps k)).status
  · simp [h2]
  · simp [h2]

/-! ## Streaming Delivery Path (downloader.py `stream_download`, lines 310-404) -/

/-- Contents of the temporary directory after the fetch: filenames with
their byte contents. -/
abbrev TempFs := List (String × List ℕ)

/-- `os.path.exists` over the temporary directory model. -/
def fileExists (fs : TempFs) (n : String) : Bool :=
  (fs.lookup n).isSome

/-- downloader.py lines 378-383: if the predicted filename does not
exist, fall back to the first file present in the temporary directory
(if any). -/
def resolveStreamFile (fs : TempFs) (predicted : String) : String :=
  if fileExists fs predicted then predicted
  else
    match fs with
    | [] => predicted
    | f :: _ => f.1

/-- `f.read(8192)` loop (downloader.py lines 387-392): split a byte
string into chunks of at most 8192 bytes. -/
def readChunks : List ℕ → List (List ℕ)
  | [] => []
  | b :: rest => ((b :: rest).take 8192) :: readChunks ((b :: rest).drop 8192)
termination_by l => l.length
decreasing_by
  simp only [List.length_drop, List.length_cons]
  omega

/-- The chunks yielded by the streaming body once the fetch succeeded:
resolve the filename, then stream the file if it exists, else nothing
(downloader.py lines 385-392). -/
def streamedChunks (fs : TempFs) (predicted : String) : List (List ℕ) :=
  match fs.lookup (resolveStreamFile fs predicted) with
  | some bytes => readChunks bytes
  | none => []

/-- Effects performed by the streaming generator, in order. -/
inductive StreamEffect where
  | mkdtemp
  | fetch
  | yieldChunk (c : List ℕ)
  | printLine (msg : String)
  | rmtree
deriving DecidableEq

/-- How the generating sequence ends: exhausted normally, closed early
by the consumer (GeneratorExit), or a propagated exception. -/
inductive ExitKind where
  | normal
  | closed
  | raised (e : String)
deriving DecidableEq

/-- A run of the generator: its effect trace and how it exited. -/
structure GenRun where
  trace : List StreamEffect
  exit : ExitKind
deriving DecidableEq

/-- The execution scenarios of `stream_download`: the fetch raises, a
fault occurs during the file read after some chunks were yielded, or
the fetch delivers a directory state and the consumer either drains the
sequence (`none`) or stops after `k` chunks (`some k`). -/
inductive StreamCase where
  | fetchRaises (e : String)
  | readRaises (yielded : List (List ℕ)) (e : String)
  | delivers (fs : TempFs) (predicted : String) (consumed : Option ℕ)
deriving DecidableEq

/-- The body of the generator's `try` block (downloader.py lines
327-392): fetch, then yield the file's chunks until exhaustion, early
close, or a read fault. -/
def bodyRun : StreamCase → GenRun
  | .fetchRaises e => ⟨[.fetch], .raised e⟩
  | .readRaises yielded e => ⟨.fetch :: yielded.map .yieldChunk, .raised e⟩
  | .delivers fs predicted consumed =>
    let chunks := streamedChunks fs predicted
    match consumed with
    | none => ⟨.fetch :: chunks.map .yieldChunk, .normal⟩
    | some k =>
      if k < chunks.length then ⟨.fetch :: (chunks.take k).map .yieldChunk, .closed⟩
      else ⟨.fetch :: chunks.map .yieldChunk, .normal⟩

/-- downloader.py lines 394-404: the `except Exception` clause logs and
re-raises (it does not see a GeneratorExit), and the `finally` clause
runs the cleanup on every exit path. -/
def tryExceptFinally (body : GenRun) : GenRun :=
  let afterExcept : GenRun :=
    match body.exit with
    | .raised e => ⟨body.trace ++ [.printLine ("Temp download error: " ++ e)], .raised e⟩
    | _ => body
  ⟨afterExcept.trace ++ [.rmtree], afterExcept.exit⟩

/-- `stream_download`: allocate the temporary directory, run the body
under the `try/except/finally`. -/
def stream_download (sc : StreamCase) : GenRun :=
  tryExceptFinally ⟨.mkdtemp :: (bodyRun sc).trace, (bodyRun sc).exit⟩

/-! ## The yt-dlp progress hook (downloader.py `_create_progress_hook`,
lines 406-444) -/

/-- The dict `d` passed by yt-dlp to the hook; keys that may be absent
are `Option` fields. -/
structure YdlProgress where
  status : String
  total_bytes : Option ℕ := none
  total_bytes_estimate : Option ℕ := none
  downloaded_bytes : Option ℕ := none
  speed : Option ℚ := none
  eta : Option ℕ := none
deriving DecidableEq

/-- The event dict the hook forwards to the registered callback. -/
inductive HookOut where
  | downloading (percentage : ℚ) (downloaded total : ℕ) (speed : ℚ) (eta : ℕ)
  | finished
  | failed
deriving DecidableEq

/-- `d.get('total_bytes') or d.get('total_bytes_estimate', 0)`
(downloader.py line 420): a missing or zero `total_bytes` falls back to
the estimate (defaulted to 0). -/
def effectiveTotal (d : YdlProgress) : ℕ :=
  match d.total_bytes with
  | some n => if n = 0 then d.total_bytes_estimate.getD 0 else n
  | none => d.total_bytes_estimate.getD 0

/-- The hook itself (downloader.py lines 416-442): forwards a
`downloading` event only when the total is positive, with percentage
`downloaded / total * 100`; forwards `finished` and `error` statuses
unconditionally; returns nothing otherwise. -/
def progressHook (d : YdlProgress) : Option HookOut :=
  if d.status = "downloading" then
    if 0 < effectiveTotal d then
      some (.downloading
        ((d.downloaded_bytes.getD 0 : ℚ) / (effectiveTotal d : ℚ) * 100)
        (d.downloaded_bytes.getD 0) (effectiveTotal d)
        (d.speed.getD 0) (d.eta.getD 0))
    else none
  else if d.status = "finished" then some .finished
  else if d.status = "error" then some .failed
  else none

/-! ## Claim theorems -/

/-- Claim C1: for every execution of `stream_download`, the temporary
directory cleanup (`shutil.rmtree` in the `finally` clause) runs as the
last effect of the generating sequence on every exit path — normal
exhaustion, early termination by the consumer, and any fault raised
during the fetch or the file read (the fault still propagates, after
cleanup). -/
theorem c1_stream_cleanup (sc : StreamCase) :
    (stream_download sc).trace.getLast? = some StreamEffect.rmtree ∧
    StreamEffect.rmtree ∈ (stream_download sc).trace ∧
    (stream_download sc).exit = (bodyRun sc).exit := by
  refine ⟨List.getLast?_concat _, List.mem_append_right _ (List.mem_singleton.mpr rfl), ?_⟩
  unfold stream_download tryExceptFinally
  cases (bodyRun sc).exit <;> rfl

/-- Claim C2: the async download worker never raises past its own
boundary: it is a total function of the adapter outcome, its final
record always has a terminal status, and on an adapter failure or a
raised exception the final record has status `error` carrying the
propagated message. -/
theorem c2_worker_never_raises (o : AdapterOutcome) :
    ((download_worker o).status = "completed" ∨ (download_worker o).status = "error") ∧
    (∀ evs m, o = .returns evs (.fail m) →
      download_worker o = errorRecord (m.getD "Error desconocido")) ∧
    (∀ evs e, o = .raises evs e →
      download_worker o = errorRecord ("Error: " ++ e)) := by
  refine ⟨?_, ?_, ?_⟩
  · rcases o with ⟨evs, fn | m⟩ | ⟨evs, e⟩ <;>
      simp [download_worker, workerBody, completedRecord, errorRecord]
  · rintro evs m rfl
    rfl
  · rintro evs e rfl
    rfl

/-- Witness for C2 at concrete adapter outcomes. -/
theorem c2_witness :
    download_worker (.returns [] (.fail (some "boom"))) = errorRecord "boom" ∧
    download_worker (.raises [] "kaput") = errorRecord ("Error: " ++ "kaput") :=
  ⟨(c2_worker_never_raises (.returns [] (.fail (some "boom")))).2.1 [] (some "boom") rfl,
   (c2_worker_never_raises (.raises [] "kaput")).2.2 [] "kaput" rfl⟩

/-- Counterexample for C3: the claimed example is wrong. The sanitiser
drops the disallowed characters of `"A/B: Test*File??"` without
inserting anything, so the result is `"AB TestFile"` (no space between
`Test` and `File`), not the claimed `"AB Test File"`. -/
theorem c3_counterexample :
    sanitizeTitle "A/B: Test*File??" = "AB TestFile" ∧
    ¬ sanitizeTitle "A/B: Test*File??" = "AB Test File" := by
  refine ⟨by decide, ?_⟩
  intro h
  have : ("AB TestFile" : String) = "AB Test File" := by
    rw [← h]; decide
  exact absurd this (by decide)

/-- Claim C3 (amended): the filename used by the streaming download
route keeps only alphanumerics, spaces, hyphens and underscores, strips
surrounding whitespace, truncates to 100 characters, and appends the
forced extension (`.mp3` for `audio_` selections, `.mp4` otherwise);
the title `"A/B: Test*File??"` sanitises to `"AB TestFile"`. -/
theorem c3_sanitization (title fmt : String) :
    (sanitizeTitle title).length ≤ 100 ∧
    (∀ c, c ∈ (sanitizeTitle title).toList → keepChar c = true) ∧
    downloadFilename title fmt =
      (if pyStartsWith fmt "audio_" then sanitizeTitle title ++ ".mp3"
       else sanitizeTitle title ++ ".mp4") ∧
    sanitizeTitle "A/B: Test*File??" = "AB TestFile" ∧
    downloadFilename "A/B: Test*File??" "audio_mp3" = "AB TestFile.mp3" ∧
    downloadFilename "A/B: Test*File??" "video_720p" = "AB TestFile.mp4" := by
  exact ⟨sanitizeTitle_length_le title, fun c hc => sanitizeTitle_chars hc, rfl,
    by decide, by decide, by decide⟩

/-- Witness for C3 (amended) at a concrete title and character. -/
theorem c3_witness :
    'H' ∈ (sanitizeTitle "Hi: There!").toList ∧ keepChar 'H' = true :=
  ⟨by decide, (c3_sanitization "Hi: There!" "audio_mp3").2.1 'H' (by decide)⟩

/-- Claim C4: the worker's event-to-record mapping: the launch record is
`downloading/0/"Conectando..."`; a `downloading` event at percentage `p`
is written with status `downloading` and percentage `round(p, 1)` (in
particular 42.37 becomes 42.4); a `finished` event is written with
status `processing`; adapter success is written as `completed` carrying
the filename and a `download_url` equal to `"/downloads/"` joined with
that filename. -/
theorem c4_event_mapping :
    connectingRecord.status = "downloading" ∧
    connectingRecord.percentage = 0 ∧
    connectingRecord.message = "Conectando..." ∧
    (∀ r p, callbackWrite r (.downloading p) = some (downloadingRecord p)) ∧
    (∀ p, (downloadingRecord p).status = "downloading" ∧
      (downloadingRecord p).percentage = pyRound1 p) ∧
    pyRound1 (4237 / 100) = (42.4 : ℚ) ∧
    (∀ r, (callbackWrite r .finished).map ProgressRecord.status = some "processing") ∧
    (∀ evs fn, download_worker (.returns evs (.ok fn)) = completedRecord fn) ∧
    (∀ fn, (completedRecord fn).status = "completed" ∧
      (completedRecord fn).filename = some fn ∧
      (completedRecord fn).download_url = some ("/downloads/" ++ fn)) :=
  ⟨rfl, rfl, rfl, fun _ _ => rfl, fun _ => ⟨rfl, rfl⟩, by norm_num [pyRound1],
   fun _ => rfl, fun _ _ => rfl, fun _ => ⟨rfl, rfl, rfl⟩⟩

/-- Claim C5: a read of an absent task id yields the synthesised
`not_found` record; no writer of the system ever stores a record with
status `not_found`; and a notifier subscription to an absent id emits
exactly that one event and terminates the stream on the first poll. -/
theorem c5_not_found :
    (∀ (s : Store) (id : String), s.lookup id = none → storeGet s id = notFoundRecord) ∧
    notFoundRecord.status = "not_found" ∧
    (∀ (o : AdapterOutcome) (r : ProgressRecord), r ∈ workerWrites o →
      r.status ≠ "not_found") ∧
    (∀ (fuel : ℕ) (snaps : ℕ → Option ProgressRecord), snaps 0 = none →
      get_progress (fuel + 1) snaps = ([notFoundRecord], true)) := by
  refine ⟨?_, rfl, ?_, ?_⟩
  · intro s id h
    simp [storeGet, pollRecord, h]
  · intro o r hr
    rcases List.mem_append.mp hr with h | h
    · rcases List.mem_cons.mp h with h | h
      · rw [h]; decide
      · rcases eventStates_status h with h2 | h2 <;> simp [h2]
    · rw [List.mem_singleton.mp h]
      rcases o with ⟨evs, fn | m⟩ | ⟨evs, e⟩ <;>
        simp [download_worker, workerBody, completedRecord, errorRecord]
  · intro fuel snaps h
    rw [get_progress, notifierLoop]
    have hcur : pollRecord (snaps 0) = notFoundRecord := by rw [h]; rfl
    rw [hcur]
    simp [isTerminal, notFoundRecord]

/-- Witness for C5 at a concrete empty store, write list, and snapshot
function. -/
theorem c5_witness :
    storeGet [] "t1" = notFoundRecord ∧
    connectingRecord.status ≠ "not_found" ∧
    get_progress 1 (fun _ => none) = ([notFoundRecord], true) :=
  ⟨c5_not_found.1 [] "t1" rfl,
   c5_not_found.2.2.1 (.returns [] (.ok "f.mp4")) connectingRecord
     (by simp [workerWrites, eventStates, eventsOf, download_worker, workerBody]),
   c5_not_found.2.2.2 0 (fun _ => none) rfl⟩

/-- Claim C6: with at least one poll of fuel, a notifier subscription
always emits at least one event before any terminal decision; if the
loop terminated (rather than running out of fuel) the last emitted
event bears a terminal status; conversely, as soon as an event with a
terminal status has been emitted the loop terminates; and the emitted
events are a sublist of the polled record sequence, i.e. they appear
in the order the underlying record changed. -/
theorem c6_notifier_termination (fuel : ℕ) (snaps : ℕ → Option ProgressRecord)
    (h : 1 ≤ fuel) :
    (get_progress fuel snaps).1 ≠ [] ∧
    ((get_progress fuel snaps).2 = true →
      ∃ r, (get_progress fuel snaps).1.getLast? = some r ∧ isTerminal r.status = true) ∧
    (∀ r, r ∈ (get_progress fuel snaps).1 → isTerminal r.status = true →
      (get_progress fuel snaps).2 = true) ∧
    List.Sublist (get_progress fuel snaps).1 (polled fuel snaps 0) := by
  obtain ⟨n, rfl⟩ : ∃ n, fuel = n + 1 := ⟨fuel - 1, by omega⟩
  refine ⟨notifierLoop_first_emits n snaps 0, ?_,
    fun r hr ht => notifierLoop_terminal_stops (n + 1) snaps 0 none hr ht,
    notifierLoop_sublist (n + 1) snaps 0 none⟩
  intro ht
  rcases notifierLoop_term_last (n + 1) snaps 0 none ht with h1 | ⟨_, r, hr, _⟩
  · exact h1
  · exact absurd hr (by simp)

/-- Witness for C6 at a concrete snapshot function whose record is
terminal at once. -/
theorem c6_witness :
    (1 : ℕ) ≤ 1 ∧
    ((get_progress 1 (fun _ => some (errorRecord "x"))).1 ≠ [] ∧
     ((get_progress 1 (fun _ => some (errorRecord "x"))).2 = true →
       ∃ r, (get_progress 1 (fun _ => some (errorRecord "x"))).1.getLast? = some r ∧
         isTerminal r.status = true) ∧
     (∀ r, r ∈ (get_progress 1 (fun _ => some (errorRecord "x"))).1 →
       isTerminal r.status = true →
       (get_progress 1 (fun _ => some (errorRecord "x"))).2 = true) ∧
     List.Sublist (get_progress 1 (fun _ => some (errorRecord "x"))).1
       (polled 1 (fun _ => some (errorRecord "x")) 0)) :=
  ⟨by decide, c6_notifier_termination 1 (fun _ => some (errorRecord "x")) (by decide)⟩

/-- Claim C7: duplicate suppression — an event is emitted only when the
record differs (structural equality on all fields) from the last
emitted one, so the emitted event sequence never contains two equal
consecutive events; in particular a subscription loop whose last
emitted record `c` keeps being read unchanged emits nothing further. -/
theorem c7_duplicate_suppression (fuel : ℕ) (snaps : ℕ → Option ProgressRecord) :
    List.Chain' (fun a b => a ≠ b) (get_progress fuel snaps).1 ∧
    (∀ (c : ProgressRecord) (k : ℕ),
      (notifierLoop fuel (fun _ => some c) k (some c)).1 = []) := by
  constructor
  · have h := notifierLoop_chain fuel snaps 0 none
    simpa using h
  · intro c k
    exact notifierLoop_const_nil fuel c k

/-- Claim C8: once a task's record reaches a terminal status, no
operation mutates it again: in the worker's ordered write sequence
every write before the last one is non-terminal and the last write is
the terminal one (so nothing follows a terminal write); reads return
copies (`storeGet` does not produce a store at all); and the cleanup
operation only removes the entry for the given id, leaving every other
entry exactly as it was. -/
theorem c8_terminal_immutable :
    (∀ (o : AdapterOutcome) (r : ProgressRecord),
      r ∈ (workerWrites o).dropLast → isTerminalRecord r = false) ∧
    (∀ o : AdapterOutcome, isTerminalRecord (download_worker o) = true) ∧
    (∀ (s : Store) (id : String) (e : String × ProgressRecord),
      e ∈ cleanup_task s id ↔ e ∈ s ∧ e.1 ≠ id) := by
  refine ⟨fun o r hr => nonterminal_before_final hr, ?_, ?_⟩
  · intro o
    rcases o with ⟨evs, fn | m⟩ | ⟨evs, e⟩ <;>
      simp [isTerminalRecord, download_worker, workerBody, completedRecord, errorRecord]
  · intro s id e
    simp [cleanup_task, List.mem_filter]

/-- Witness for C8 at a concrete outcome and store. -/
theorem c8_witness :
    isTerminalRecord connectingRecord = false ∧
    isTerminalRecord (download_worker (.returns [] (.ok "f.mp4"))) = true ∧
    (("a", connectingRecord) ∈ cleanup_task [("a", connectingRecord), ("b", connectingRecord)] "b" ↔
      ("a", connectingRecord) ∈ [("a", connectingRecord), ("b", connectingRecord)] ∧
        ("a", connectingRecord).1 ≠ "b") :=
  ⟨c8_terminal_immutable.1 (.returns [] (.ok "f.mp4")) connectingRecord
     (by simp [workerWrites, eventStates, eventsOf]),
   c8_terminal_immutable.2.1 (.returns [] (.ok "f.mp4")),
   c8_terminal_immutable.2.2 [("a", connectingRecord), ("b", connectingRecord)] "b"
     ("a", connectingRecord)⟩

/-- Claim C9: in the streaming delivery operation, when the predicted
filename does not exist in the temporary directory after the fetch and
the directory contains at least one file, the operation falls back to
the first file present and streams its contents. -/
theorem c9_fallback (fs : TempFs) (predicted : String) (f : String × List ℕ)
    (rest : TempFs) (hfs : fs = f :: rest) (hmiss : fileExists fs predicted = false) :
    resolveStreamFile fs predicted = f.1 ∧
    streamedChunks fs predicted = readChunks f.2 ∧
    stream_download (.delivers fs predicted none) =
      ⟨.mkdtemp :: .fetch :: ((readChunks f.2).map .yieldChunk ++ [.rmtree]), .normal⟩ := by
  subst hfs
  have h1 : resolveStreamFile (f :: rest) predicted = f.1 := by
    simp [resolveStreamFile, hmiss]
  have h2 : streamedChunks (f :: rest) predicted = readChunks f.2 := by
    rw [streamedChunks, h1]
    obtain ⟨a, b⟩ := f
    simp [List.lookup]
  refine ⟨h1, h2, ?_⟩
  simp [stream_download, tryExceptFinally, bodyRun, h2]

/-- Witness for C9: predicted name `pred.mp4` is absent, directory
holds `actual.mp4` with three bytes. -/
theorem c9_witness :
    ([("actual.mp4", [1, 2, 3])] : TempFs) = ("actual.mp4", [1, 2, 3]) :: [] ∧
    fileExists [("actual.mp4", [1, 2, 3])] "pred.mp4" = false ∧
    (resolveStreamFile [("actual.mp4", [1, 2, 3])] "pred.mp4" = "actual.mp4" ∧
     streamedChunks [("actual.mp4", [1, 2, 3])] "pred.mp4" = readChunks [1, 2, 3] ∧
     stream_download (.delivers [("actual.mp4", [1, 2, 3])] "pred.mp4" none) =
       ⟨.mkdtemp :: .fetch :: ((readChunks [1, 2, 3]).map .yieldChunk ++ [.rmtree]),
        .normal⟩) :=
  ⟨rfl, by decide,
   c9_fallback [("actual.mp4", [1, 2, 3])] "pred.mp4" ("actual.mp4", [1, 2, 3]) [] rfl
     (by decide)⟩

/-- Claim C10: the progress hook forwards a `downloading` event only
when the effective total byte count (exact, or the estimate as
fallback) is strictly positive, with percentage exactly
`downloaded / total * 100`; when the effective total is zero or
unknown, no `downloading` callback is made, so the percentage
computation never divides by zero and every forwarded `downloading`
event carries a defined percentage. -/
theorem c10_hook_guard (d : YdlProgress) :
    (∀ p dl t s e, progressHook d = some (.downloading p dl t s e) →
      0 < effectiveTotal d ∧ t = effectiveTotal d ∧ dl = d.downloaded_bytes.getD 0 ∧
      p = (dl : ℚ) / (t : ℚ) * 100) ∧
    (d.status = "downloading" → effectiveTotal d = 0 → progressHook d = none) ∧
    (d.status = "downloading" → 0 < effectiveTotal d →
      progressHook d = some (.downloading
        ((d.downloaded_bytes.getD 0 : ℚ) / (effectiveTotal d : ℚ) * 100)
        (d.downloaded_bytes.getD 0) (effectiveTotal d)
        (d.speed.getD 0) (d.eta.getD 0))) := by
  refine ⟨?_, ?_, ?_⟩
  · intro p dl t s e h
    rw [progressHook] at h
    by_cases hs : d.status = "downloading"
    · rw [if_pos hs] at h
      by_cases htot : 0 < effectiveTotal d
      · rw [if_pos htot] at h
        simp only [Option.some.injEq, HookOut.downloading.injEq] at h
        obtain ⟨hp, hdl, ht, _, _⟩ := h
        subst ht hdl hp
        exact ⟨htot, rfl, rfl, rfl⟩
      · rw [if_neg htot] at h
        exact absurd h (by simp)
    · rw [if_neg hs] at h
      by_cases h2 : d.status = "finished"
      · rw [if_pos h2] at h; simp at h
      · rw [if_neg h2] at h
        by_cases h3 : d.status = "error"
        · rw [if_pos h3] at h; simp at h
        · rw [if_neg h3] at h; simp at h
  · intro hs htot
    rw [progressHook, if_pos hs, if_neg (by omega)]
  · intro hs htot
    rw [progressHook, if_pos hs, if_pos htot]

/-- Witness for C10: a dict with total 200 and 50 downloaded forwards a
25% event; a dict with no total forwards nothing. -/
theorem c10_witness :
    progressHook
      { status := "downloading", total_bytes := some 200, downloaded_bytes := some 50 } =
      some (.downloading 25 50 200 0 0) ∧
    progressHook { status := "downloading", downloaded_bytes := some 50 } = none := by
  constructor
  · have h := (c10_hook_guard
      { status := "downloading", total_bytes := some 200, downloaded_bytes := some 50 }).2.2
      rfl (by decide)
    rw [h]
    norm_num [effectiveTotal, Option.getD]
  · exact (c10_hook_guard { status := "downloading", downloaded_bytes := some 50 }).2.1 rfl rfl

end OmniGrab
